import Mathlib

/-!
# Verification of the invoice/provider onboarding pipeline

Shallow embedding of the reconciliation code of this repository:

* `src/causaciones/subir_facturas_mongodb.py` — invoice upload
  (`limpiar_nit`, `extraer_id_factura`, `buscar_zip_similar`,
  `obtener_descripcion_dian_desde_pdf`, `extraer_descripcion_dian`,
  `procesar_y_subir_facturas`);
* `src/causaciones/renombrar_zips.py` — zip helpers
  (`obtener_archivos_zip`, `extraer_zip`);
* `src/proveedores/subir_proveedores_mongodb.py` — provider consolidation
  (`limpiar_nit`, `limpiar_campo`, `extraer_datos_transaccion`,
  `procesar_archivos_csv`).

Python strings are modelled by Lean `String`; the Unicode-aware character
classes of CPython (`str.isdigit`, `str.isspace`) are modelled on the
code-point ranges relevant to the inputs considered here.  External effects
(the MongoDB collection, the filesystem, PDF parsing) are made explicit:
the collection is a list of documents that the functions thread through,
the working directory is a list of file names, and the PDF parser is an
oracle argument producing either parsed tables or an exception.
-/

namespace Py

/-- Python `str.isspace` / the default `str.strip()` and `str.split()`
character class, restricted to the ASCII whitespace characters
(space, tab, newline, carriage return, vertical tab, form feed).
CPython additionally accepts some exotic Unicode spacing characters that do
not occur in the data handled by these scripts. -/
def pyIsSpace (c : Char) : Bool :=
  c = ' ' || c = '\t' || c = '\n' || c = '\r' || c = '\x0b' || c = '\x0c'

/-- Python `str.isdigit`, on the code points relevant here.  CPython accepts
every character with Unicode property `Numeric_Type=Digit` or
`Numeric_Type=Decimal`; per the CPython documentation this *includes*
characters that are not ASCII digits, e.g. the compatibility superscript
digits `¹ ² ³` (U+00B9, U+00B2, U+00B3) and the Arabic-Indic digits
U+0660–U+0669, all modelled here. -/
def pyIsDigit (c : Char) : Bool :=
  (48 ≤ c.val && c.val ≤ 57) ||
  c = '¹' || c = '²' || c = '³' ||
  (0x660 ≤ c.val && c.val ≤ 0x669)

/-- Python `s.strip()` (no argument): remove leading and trailing
whitespace. -/
def pyStrip (s : String) : String :=
  String.mk (((s.data.dropWhile pyIsSpace).reverse.dropWhile pyIsSpace).reverse)

/-- Python `s.lower()`, on ASCII letters (`Char.toLower` maps `A`–`Z` to
`a`–`z` and leaves everything else unchanged, which matches CPython on the
ASCII range). -/
def pyLower (s : String) : String :=
  String.mk (s.data.map Char.toLower)

/-- Helper for `pySplitWs`: accumulate the current (reversed) token while
scanning the character list. -/
def pySplitWsAux : List Char → List Char → List String
  | [], [] => []
  | [], cur => [String.mk cur.reverse]
  | c :: rest, cur =>
    if pyIsSpace c then
      match cur with
      | [] => pySplitWsAux rest []
      | _ => String.mk cur.reverse :: pySplitWsAux rest []
    else pySplitWsAux rest (c :: cur)

/-- Python `s.split()` (no argument): split on runs of whitespace,
discarding empty tokens. -/
def pySplitWs (s : String) : List String :=
  pySplitWsAux s.data []

/-- Python substring test `needle in hay` (contiguous substring;
the empty string is a substring of everything). -/
def substrB (needle hay : String) : Bool :=
  hay.data.tails.any (fun t => needle.data.isPrefixOf t)

/-- Python `s.endswith(suffix)`. -/
def pyEndsWith (s suffix : String) : Bool :=
  suffix.data.isSuffixOf s.data

/-- The root part of CPython `os.path.splitext(p)` for a plain file name
(no directory separators): split at the last `.` provided some non-dot
character occurs before it; a name whose leading characters are all dots
has no extension. -/
def splitextRoot (p : String) : String :=
  let cs := p.data
  let cands := (List.range cs.length).filter
    (fun i => cs.getD i ' ' == '.' && (cs.take i).any (fun c => c != '.'))
  match cands.getLast? with
  | some i => String.mk (cs.take i)
  | none => p

/-- `''.join(filter(str.isdigit, s))`: keep only the digit characters. -/
def filterDigits (s : String) : String :=
  String.mk (s.data.filter pyIsDigit)

end Py

namespace Difflib

/-!
Model of the part of CPython `difflib` used by the matcher:
`get_close_matches(word, possibilities, n=1)` with the default cutoff 0.6.
The junk machinery of `SequenceMatcher` is omitted: the caller passes no
junk predicate, and the `autojunk` heuristic only fires when the second
sequence has at least 200 elements, far beyond the identifiers and file
names handled here; with an empty junk set the post-DP junk-extension
loops of `find_longest_match` are the identity.  Ratios are kept as exact
fractions `(numerator, denominator)` instead of floats.
-/

/-- Indices at which character `c` occurs in `b` (ascending) — the `b2j`
table of `SequenceMatcher`. -/
def posOf (b : List Char) (c : Char) : List Nat :=
  (List.range b.length).filter (fun j => b.getD j ' ' == c)

/-- Lookup in the `j2len` association list (missing key means 0). -/
def j2get (l : List (Nat × Nat)) (j : Nat) : Nat :=
  match l.find? (fun p => p.1 == j) with
  | some p => p.2
  | none => 0

/-- One row of the `find_longest_match` dynamic program: scan the
occurrence list of `a[i]` in `b`, build the new `j2len` table and update
the best block.  `js` is ascending, so skipping entries `≥ bhi` coincides
with CPython's `break`. -/
def flmRow (blo bhi i : Nat) (js : List Nat)
    (j2len : List (Nat × Nat)) (best : Nat × Nat × Nat) :
    List (Nat × Nat) × (Nat × Nat × Nat) :=
  js.foldl
    (fun acc j =>
      if j < blo ∨ bhi ≤ j then acc
      else
        let k := (if j = 0 then 0 else j2get j2len (j - 1)) + 1
        let newTab := (j, k) :: acc.1
        let newBest :=
          if k > acc.2.2.2 then (i + 1 - k, j + 1 - k, k) else acc.2
        (newTab, newBest))
    ([], best)

/-- The dynamic-programming phase of `find_longest_match` over
`a[alo:ahi]` and `b[blo:bhi]`. -/
def flmLoop (a b : List Char) (alo ahi blo bhi : Nat) : Nat × Nat × Nat :=
  ((List.range (ahi - alo)).foldl
    (fun (st : List (Nat × Nat) × (Nat × Nat × Nat)) d =>
      let i := alo + d
      flmRow blo bhi i (posOf b (a.getD i ' ')) st.1 st.2)
    ([], (alo, blo, 0))).2

/-- Extend the best block to the left over equal characters (the first
post-DP `while` loop of `find_longest_match`; the junk set is empty).
The fuel bounds the iteration count, which is at most `besti`. -/
def extendLeft (a b : List Char) (alo blo : Nat) :
    Nat → Nat × Nat × Nat → Nat × Nat × Nat
  | 0, st => st
  | fuel + 1, (besti, bestj, bestsize) =>
    if alo < besti ∧ blo < bestj ∧
        a.getD (besti - 1) ' ' == b.getD (bestj - 1) ' ' then
      extendLeft a b alo blo fuel (besti - 1, bestj - 1, bestsize + 1)
    else (besti, bestj, bestsize)

/-- Extend the best block to the right over equal characters (the second
post-DP `while` loop of `find_longest_match`). -/
def extendRight (a b : List Char) (ahi bhi : Nat) :
    Nat → Nat × Nat × Nat → Nat × Nat × Nat
  | 0, st => st
  | fuel + 1, (besti, bestj, bestsize) =>
    if besti + bestsize < ahi ∧ bestj + bestsize < bhi ∧
        a.getD (besti + bestsize) ' ' == b.getD (bestj + bestsize) ' ' then
      extendRight a b ahi bhi fuel (besti, bestj, bestsize + 1)
    else (besti, bestj, bestsize)

/-- `SequenceMatcher.find_longest_match` on slices `a[alo:ahi]`,
`b[blo:bhi]` (no junk). -/
def find_longest_match (a b : List Char) (alo ahi blo bhi : Nat) :
    Nat × Nat × Nat :=
  let st := flmLoop a b alo ahi blo bhi
  let st := extendLeft a b alo blo st.1 st
  extendRight a b ahi bhi ahi st

/-- Total size of the matching blocks of `a[alo:ahi]` vs `b[blo:bhi]`:
the recursive decomposition performed by `get_matching_blocks`, summed.
The fuel bounds the recursion depth; `(ahi - alo) + (bhi - blo)` strictly
decreases at each recursive call, so `a.length + b.length + 1` suffices. -/
def matchingSum (a b : List Char) :
    Nat → Nat → Nat → Nat → Nat → Nat
  | 0, _, _, _, _ => 0
  | fuel + 1, alo, ahi, blo, bhi =>
    let r := find_longest_match a b alo ahi blo bhi
    let i := r.1; let j := r.2.1; let k := r.2.2
    if k = 0 then 0
    else
      (if alo < i ∧ blo < j then matchingSum a b fuel alo i blo j else 0)
        + k +
      (if i + k < ahi ∧ j + k < bhi then
        matchingSum a b fuel (i + k) ahi (j + k) bhi
      else 0)

/-- `SequenceMatcher.ratio()` for sequences `a`, `b`, as an exact fraction
`(2 * matches, len(a) + len(b))`; CPython returns `1.0` when both
sequences are empty. -/
def ratioPair (a b : List Char) : Nat × Nat :=
  let t := a.length + b.length
  if t = 0 then (1, 1)
  else (2 * matchingSum a b (t + 1) 0 a.length 0 b.length, t)

/-- Strict comparison of `(ratio, candidate)` pairs as CPython compares
the tuples `(s.ratio(), x)` inside `heapq.nlargest`: first by the ratio
(exact-fraction cross-multiplication), then lexicographically by the
candidate string. -/
def scoredLt (p q : (Nat × Nat) × String) : Bool :=
  (p.1.1 * q.1.2 < q.1.1 * p.1.2) ||
  (p.1.1 * q.1.2 == q.1.1 * p.1.2 && p.2 < q.2)

/-- `difflib.get_close_matches(word, possibilities, n=1)` with the default
cutoff `0.6`: keep the possibilities whose ratio against `word` is at
least 3/5, and return the maximum of the `(ratio, x)` tuples (ties keep
the earliest, as in a stable descending sort).  The `real_quick_ratio` and
`quick_ratio` prefilters of CPython are upper bounds of `ratio` and hence
do not change which possibilities survive the cutoff. -/
def get_close_matches1 (word : String) (possibilities : List String) :
    Option String :=
  let scored := possibilities.filterMap
    (fun x =>
      let p := ratioPair x.data word.data
      if 5 * p.1 ≥ 3 * p.2 then some (p, x) else none)
  (scored.foldl
    (fun best cand =>
      match best with
      | none => some cand
      | some b => if scoredLt b cand then some cand else some b)
    none).map (·.2)

end Difflib

namespace Causaciones

open Py

/-- `limpiar_nit` of `src/causaciones/subir_facturas_mongodb.py`:
`''.join(filter(str.isdigit, nit_raw or ''))`.  A `None` argument is
modelled as `none`; `nit_raw or ''` maps both `None` and `""` to `""`. -/
def limpiar_nit (nitRaw : Option String) : String :=
  filterDigits (nitRaw.getD "")

/-- Result of `extraer_id_factura`: the function returns the *integer* `0`
for a blank description, a token string when some whitespace-delimited
token contains a digit, and falls through (Python `None`) otherwise. -/
inductive IdFactura where
  | entero0 : IdFactura
  | token (t : String) : IdFactura
  | ninguno : IdFactura
deriving DecidableEq, Repr

/-- `any(char.isdigit() for char in parte)`. -/
def contieneDigito (parte : String) : Bool :=
  parte.data.any pyIsDigit

/-- `extraer_id_factura`: strip the description; if blank return `0`;
otherwise return the first whitespace-delimited token containing a digit,
and `None` when no token does. -/
def extraer_id_factura (descripcionArchivo : String) : IdFactura :=
  let d := pyStrip descripcionArchivo
  if d = "" then .entero0
  else
    match (pySplitWs d).find? contieneDigito with
    | some parte => .token parte
    | none => .ninguno

/-- The normalized base of a candidate zip name:
`os.path.splitext(z)[0].lower().strip()`. -/
def baseZip (z : String) : String :=
  pyStrip (pyLower (splitextRoot z))

/-- The pass-1 containment test of `buscar_zip_similar`:
`id_factura in base_zip or base_zip in id_factura` for the normalized
identifier `idf`. -/
def contencion (idf z : String) : Bool :=
  substrB idf (baseZip z) || substrB (baseZip z) idf

/-- `buscar_zip_similar(lista_zips, id_factura)`: guard against an empty
identifier or candidate list; normalize the identifier; drop falsy (empty)
candidates; pass 1 returns the first candidate whose base contains the
identifier or is contained in it; pass 2 falls back to
`difflib.get_close_matches(id, bases, n=1)` and maps the winning base back
to the candidate at its first index (`bases_zip.index`). -/
def buscar_zip_similar (listaZips : List String) (idFactura : String) :
    Option String :=
  if idFactura = "" ∨ listaZips = [] then none
  else
    let idf := pyStrip (pyLower idFactura)
    let lz := listaZips.filter (fun z => z ≠ "")
    match lz.find? (fun z => contencion idf z) with
    | some z => some z
    | none =>
      let bases := lz.map baseZip
      match Difflib.get_close_matches1 idf bases with
      | some b => lz.get? (bases.indexOf b)
      | none => none

/-! ### PDF table scanning (`obtener_descripcion_dian_desde_pdf`)

`pdfplumber` artefacts are modelled structurally: a cell of an extracted
table is `Option String` (`None` or a string), a table is a list of rows
of cells, a page carries a list of tables, and a parsed PDF is a list of
pages.  Opening/parsing is an oracle producing either the pages or an
exception, mirroring the `try/except` around the whole body. -/

/-- A cell of a `pdfplumber` extracted table. -/
abbrev Celda := Option String

/-- A row of an extracted table. -/
abbrev FilaTabla := List Celda

/-- An extracted table. -/
abbrev Tabla := List FilaTabla

/-- The tables of one PDF page. -/
abbrev Pagina := List Tabla

/-- The header-cell test: `celda and ("Descripción" in celda or
"Descripcion" in celda)`. -/
def celdaEncabezado (c : Celda) : Bool :=
  match c with
  | some s => substrB "Descripción" s || substrB "Descripcion" s
  | none => false

/-- The values collected from one table: find the first row containing a
header cell and the index of the first such cell in it
(`fila_encabezado`, `indice_col_descripcion`); then, for every row after
`tabla.index(fila_encabezado)`, take the cell at that column when the row
is non-empty and long enough, keeping non-blank strings (stripped). -/
def descripcionesDeTabla (tabla : Tabla) : List String :=
  match tabla.find? (fun fila => (fila.findIdx? celdaEncabezado).isSome) with
  | none => []
  | some filaEnc =>
    match filaEnc.findIdx? celdaEncabezado with
    | none => []
    | some idx =>
      (tabla.drop (tabla.indexOf filaEnc + 1)).filterMap
        (fun fila =>
          if fila ≠ [] ∧ idx < fila.length then
            match fila.getD idx none with
            | some s => if pyStrip s ≠ "" then some (pyStrip s) else none
            | none => none
          else none)

/-- The `descripciones` list accumulated over all pages and all tables of
each page, in scan order. -/
def descripcionesDePaginas (paginas : List Pagina) : List String :=
  (paginas.map (fun pag => (pag.map descripcionesDeTabla).flatten)).flatten

/-- `obtener_descripcion_dian_desde_pdf`, applied to the parse result of
the PDF: an exception is caught and converted to `None`; otherwise the
descriptions collected over all pages and tables are returned — the single
entry unwrapped when there is exactly one, the `" | "`-join when more, and
`None` (after a logged warning) when none. -/
def obtener_descripcion_dian_desde_pdf
    (parsed : Except String (List Pagina)) : Option String :=
  match parsed with
  | .error _ => none
  | .ok paginas =>
    let descripciones := descripcionesDePaginas paginas
    if descripciones ≠ [] then
      some (if descripciones.length = 1 then descripciones.headD ""
            else String.intercalate " | " descripciones)
    else none

/-- `obtener_archivos_zip` of `src/causaciones/renombrar_zips.py`:
filter a directory listing to the `.zip` entries. -/
def obtener_archivos_zip (listing : List String) : List String :=
  listing.filter (fun f => pyEndsWith f ".zip")

/-- `extraer_descripcion_dian(id_factura)` with its external effects made
explicit.  `listing` is the directory listing of the zip folder,
`contenidoZip` the member list of each archive (`ZipFile.namelist`, which
`extractall` writes into the working directory), `parsePdf` the
`pdfplumber` oracle for each member file, and `fs` the set of files in the
working directory.  Returns the extracted description together with the
final working-directory contents: after extraction, the first `.pdf`
member is parsed, and then *every* extracted member is removed
(`os.remove` guarded by `os.path.exists`). -/
def extraer_descripcion_dian
    (listing : List String) (contenidoZip : String → List String)
    (parsePdf : String → Except String (List Pagina))
    (idFactura : String) (fs : List String) :
    Option String × List String :=
  let archivosZip := obtener_archivos_zip listing
  match buscar_zip_similar archivosZip idFactura with
  | none => (none, fs)
  | some zipEncontrado =>
    let extraidos := contenidoZip zipEncontrado
    let fs1 := extraidos.foldl
      (fun acc f => if f ∈ acc then acc else acc ++ [f]) fs
    let descripcion :=
      match extraidos.find? (fun f => pyEndsWith f ".pdf") with
      | some pdf => obtener_descripcion_dian_desde_pdf (parsePdf pdf)
      | none => none
    let fs2 := extraidos.foldl (fun acc f => acc.filter (fun g => g ≠ f)) fs1
    (descripcion, fs2)

/-! ### Invoice upload (`procesar_y_subir_facturas`)

The MongoDB `invoices` collection is modelled as a list of documents, the
spreadsheet as the list of data rows following the `TIPO DE FACTURA`
header row, and the DIAN-description extraction pipeline (which reads the
zip directory) as an oracle from the invoice id to the optional extracted
description.  Cells are modelled as present strings. -/

/-- The columns of one data row that `procesar_y_subir_facturas` reads:
`fila[0]` (invoice type), `fila[16]` (supplier NIT), `fila[18]` (file
description) and `fila[86]` (invoice id). -/
structure FilaFactura where
  tipo : String
  nit : String
  descripcionArchivo : String
  idFactura : String
deriving DecidableEq, Repr

/-- One persisted invoice document (`invoice_data`). -/
structure Invoice where
  uid : String
  supplierId : String
  file_description : String
  invoiceId : String
  invoice_type : String
  dian_description : Option String
  module : String
  entity : String
deriving DecidableEq, Repr

/-- The mutable state of the upload loop: the collection, the
`facturas_procesadas` set (a list of the mixed-typed
`extraer_id_factura` results that Python adds to the set), and the
`contador_creadas` counter. -/
structure EstadoFacturas where
  db : List Invoice
  procesadas : List IdFactura
  creadas : Nat
deriving Repr

/-- The `invoice_data` document assembled for one accepted row. -/
def facturaDoc (uid : String) (dian : String → Option String)
    (f : FilaFactura) : Invoice :=
  { uid := uid,
    supplierId := pyStrip (limpiar_nit (some f.nit)),
    file_description := pyStrip f.descripcionArchivo,
    invoiceId := pyStrip f.idFactura,
    invoice_type := pyStrip f.tipo,
    dian_description := dian (pyStrip f.idFactura),
    module := pyStrip (limpiar_nit (some f.nit)),
    entity := pyStrip f.idFactura }

/-- One iteration of the row loop of `procesar_y_subir_facturas`:
skip blank-typed rows; skip rows whose type mentions neither `Servicio`
nor `Arrendamiento`; skip rows whose extracted file-description id was
already seen (`facturas_procesadas`); otherwise record that id, look the
`(UID, invoiceId)` key up in the collection and — only when absent —
insert the new document and bump the created counter. -/
def pasoFactura (uid : String) (dian : String → Option String)
    (st : EstadoFacturas) (f : FilaFactura) : EstadoFacturas :=
  if f.tipo = "" then st
  else
    let tipoFactura := pyStrip f.tipo
    if substrB "Servicio" tipoFactura || substrB "Arrendamiento" tipoFactura then
      let idOriginal := extraer_id_factura (pyStrip f.descripcionArchivo)
      if idOriginal ∈ st.procesadas then st
      else
        let procesadas := st.procesadas ++ [idOriginal]
        let idFactura := pyStrip f.idFactura
        if (st.db.find? (fun d =>
            d.uid == uid && d.invoiceId == idFactura)).isSome then
          { st with procesadas := procesadas }
        else
          { db := st.db ++ [facturaDoc uid dian f],
            procesadas := procesadas, creadas := st.creadas + 1 }
    else st

/-- `procesar_y_subir_facturas(uid, ambiente)` restricted to its row loop:
fold the data rows over the collection state, starting from the given
collection contents, an empty `facturas_procesadas` set and a zero
counter. -/
def procesar_y_subir_facturas (uid : String) (dian : String → Option String)
    (filas : List FilaFactura) (db : List Invoice) : EstadoFacturas :=
  filas.foldl (pasoFactura uid dian) ⟨db, [], 0⟩

/-- A collection holds the key `(u, i)` when some document carries it. -/
def tieneClave (db : List Invoice) (u i : String) : Prop :=
  ∃ d ∈ db, d.uid = u ∧ d.invoiceId = i

/-- The `(UID, invoiceId)` keys of the collection. -/
def clavesFacturas (db : List Invoice) : List (String × String) :=
  db.map (fun d => (d.uid, d.invoiceId))

end Causaciones

namespace Proveedores

open Py

/-- `limpiar_campo` of `src/proveedores/subir_proveedores_mongodb.py`,
on string cells: `valor.strip()`. -/
def limpiar_campo (valor : String) : String :=
  pyStrip valor

/-- `limpiar_nit` of `src/proveedores/subir_proveedores_mongodb.py`:
digit-filter string inputs, return non-string inputs (modelled as `none`,
e.g. a pandas `NaN`) unchanged. -/
def limpiar_nit (nit : Option String) : Option String :=
  nit.map filterDigits

/-- One CSV row, restricted to the required columns
(`CUENTA, DESCRIPCION, NIT, NOMBRE, FECHA, DIG.VER., CENTRO COSTO,
SALDO ACUMULADO`); cells are modelled as present strings, so the
`campos_extra` loop over the non-required columns contributes nothing. -/
structure Row where
  cuenta : String
  descripcion : String
  nit : String
  nombre : String
  fecha : String
  digVer : String
  centroCosto : String
  saldoAcumulado : String
deriving DecidableEq, Repr

/-- The transaction sub-document built by `extraer_datos_transaccion`.
Of its field map, only `FECHA → date`, `SALDO ACUMULADO →
accumulated_balance` and `CENTRO COSTO → cost_center` are present among
the required columns; a `none` field models an absent key. -/
structure Transaccion where
  date : Option String
  accumulated_balance : Option String
  cost_center : Option String
deriving DecidableEq, Repr

/-- `extraer_datos_transaccion(row)`: keep each mapped column whose value
strips to a non-blank string (storing the stripped value); return `None`
when the resulting dict is empty. -/
def extraer_datos_transaccion (r : Row) : Option Transaccion :=
  let campo := fun (v : String) =>
    if pyStrip v ≠ "" then some (limpiar_campo v) else none
  let t : Transaccion :=
    { date := campo r.fecha,
      accumulated_balance := campo r.saldoAcumulado,
      cost_center := campo r.centroCosto }
  if t = { date := none, accumulated_balance := none, cost_center := none }
  then none else some t

/-- One consolidated provider document (`proveedor_doc`); `PUC` is the
account-code list, `defaultPUC` the `{"code": cuenta}` sub-document, and
`transactions` the appended transaction list (`[]` models an absent
key). -/
structure ProveedorDoc where
  id : String
  uid : String
  description : String
  name : String
  PUC : List String
  defaultPUC : String
  personType : String
  idType : String
  cost_center : String
  accumulated_balance : String
  transactions : List Transaccion
deriving DecidableEq, Repr

/-- The person/company classification of a cleaned NIT:
`'Company' if len(nit) == 9 and (nit[0] == '8' or nit[0] == '9') else
'Person'` (the `isinstance(nit, str)` guard always holds for string
cells). -/
def tipoPersonaDe (nit : String) : String :=
  if nit.length = 9 ∧ (nit.data.headD ' ' = '8' ∨ nit.data.headD ' ' = '9')
  then "Company" else "Person"

/-- Lookup in the insertion-ordered provider dictionary. -/
def alGet (dict : List (String × ProveedorDoc)) (k : String) :
    Option ProveedorDoc :=
  (dict.find? (fun p => p.1 == k)).map (·.2)

/-- In-place update of the value stored under key `k` (Python dict
mutation; key order is preserved). -/
def alUpdate (dict : List (String × ProveedorDoc)) (k : String)
    (f : ProveedorDoc → ProveedorDoc) : List (String × ProveedorDoc) :=
  dict.map (fun p => if p.1 == k then (p.1, f p.2) else p)

/-- The consolidation applied to the existing entry of an already-seen
NIT: append the (cleaned) account code when it is not yet in `PUC`, and
append the row's transaction when there is one. -/
def consolidaProveedor (r : Row) (d : ProveedorDoc) : ProveedorDoc :=
  let cuenta := limpiar_campo r.cuenta
  let d' := if cuenta ∈ d.PUC then d else { d with PUC := d.PUC ++ [cuenta] }
  match extraer_datos_transaccion r with
  | some t => { d' with transactions := d'.transactions ++ [t] }
  | none => d'

/-- The fresh `proveedor_doc` created for a first-seen NIT. -/
def nuevoProveedor (uid : String) (r : Row) : ProveedorDoc :=
  let cuenta := limpiar_campo r.cuenta
  let nit := (limpiar_nit (some r.nit)).getD ""
  { id := nit, uid := uid,
    description := limpiar_campo r.descripcion,
    name := limpiar_campo r.nombre,
    PUC := [cuenta], defaultPUC := cuenta,
    personType := tipoPersonaDe nit,
    idType := if tipoPersonaDe nit = "Company" then "31" else "13",
    cost_center := limpiar_campo r.centroCosto,
    accumulated_balance := limpiar_campo r.saldoAcumulado,
    transactions := (extraer_datos_transaccion r).toList }

/-- One iteration of the row loop of `procesar_archivos_csv` (the active,
globally-deduplicating version): clean the cells, push rows missing
`cuenta`/`nit`/`nombre` onto the failed list, and otherwise either
consolidate into the existing entry under the NIT key or create a fresh
provider document. -/
def procRow (uid : String)
    (st : List (String × ProveedorDoc) × List Row) (r : Row) :
    List (String × ProveedorDoc) × List Row :=
  let cuenta := limpiar_campo r.cuenta
  let nit := (limpiar_nit (some r.nit)).getD ""
  let nombre := limpiar_campo r.nombre
  if cuenta = "" ∨ nit = "" ∨ nombre = "" then (st.1, st.2 ++ [r])
  else
    let clave := nit
    match alGet st.1 clave with
    | some _ => (alUpdate st.1 clave (consolidaProveedor r), st.2)
    | none => (st.1 ++ [(clave, nuevoProveedor uid r)], st.2)

/-- `procesar_archivos_csv(uid)` restricted to its row loop over the
concatenated rows of the `_Procesado.csv` files (the per-file loop only
concatenates; the required-column check is assumed to pass): fold the rows
through `procRow` and return the dictionary values in insertion order
together with the failed rows. -/
def procesar_archivos_csv (uid : String) (rows : List Row) :
    List ProveedorDoc × List Row :=
  let st := rows.foldl (procRow uid) ([], [])
  (st.1.map (·.2), st.2)

/-- A row is accepted when its cleaned `cuenta`, `nit` and `nombre` are
all non-blank. -/
def aceptada (r : Row) : Bool :=
  limpiar_campo r.cuenta ≠ "" && (limpiar_nit (some r.nit)).getD "" ≠ "" &&
    limpiar_campo r.nombre ≠ ""

/-- The dictionary key a row consolidates under: its cleaned NIT. -/
def clave (r : Row) : String :=
  (limpiar_nit (some r.nit)).getD ""

/-- The accepted rows of a batch that consolidate under key `k`, in input
order. -/
def grupo (rows : List Row) (k : String) : List Row :=
  rows.filter (fun r => aceptada r && clave r == k)

/-- Order-preserving deduplication (first occurrence wins) — the effect of
the `if cuenta not in proveedor_existente["PUC"]: append` consolidation. -/
def dedupFirst (l : List String) : List String :=
  l.foldl (fun acc c => if c ∈ acc then acc else acc ++ [c]) []

/-- The document that the batch builds for key `k` from group `g` (`none`
when the group is empty): scalar fields from the group's first row, the
deduplicated account codes of the whole group, and the appended
transactions of the whole group. -/
def consolidado (uid k : String) (g : List Row) : Option ProveedorDoc :=
  match g with
  | [] => none
  | r₀ :: _ =>
    some
      { id := k, uid := uid,
        description := limpiar_campo r₀.descripcion,
        name := limpiar_campo r₀.nombre,
        PUC := dedupFirst (g.map (fun r => limpiar_campo r.cuenta)),
        defaultPUC := limpiar_campo r₀.cuenta,
        personType := tipoPersonaDe k,
        idType := if tipoPersonaDe k = "Company" then "31" else "13",
        cost_center := limpiar_campo r₀.centroCosto,
        accumulated_balance := limpiar_campo r₀.saldoAcumulado,
        transactions := g.filterMap extraer_datos_transaccion }

/-- The key list of the provider dictionary. -/
def clavesDict (l : List (String × ProveedorDoc)) : List String :=
  l.map (·.1)

/-- Example batch for the account-code union scenario: three rows of one
provider contributing the account codes `5100`, `5100` and `6200`. -/
def filasEjemploPUC : List Row :=
  [{ cuenta := "5100", descripcion := "D1", nit := "111", nombre := "A",
     fecha := "", digVer := "", centroCosto := "", saldoAcumulado := "" },
   { cuenta := "5100", descripcion := "D2", nit := "111", nombre := "B",
     fecha := "", digVer := "", centroCosto := "", saldoAcumulado := "" },
   { cuenta := "6200", descripcion := "D3", nit := "111", nombre := "C",
     fecha := "", digVer := "", centroCosto := "", saldoAcumulado := "" }]

/-- The provider document the account-code example batch produces. -/
def docEjemploPUC : ProveedorDoc :=
  { id := "111", uid := "u", description := "D1", name := "A",
    PUC := ["5100", "6200"], defaultPUC := "5100", personType := "Person",
    idType := "13", cost_center := "", accumulated_balance := "",
    transactions := [] }

/-- Example batch for the scalar-field scenario: the first row of the
group has a blank description, a later row a non-blank one. -/
def filasEjemploDesc : List Row :=
  [{ cuenta := "5100", descripcion := "", nit := "111", nombre := "A",
     fecha := "", digVer := "", centroCosto := "", saldoAcumulado := "" },
   { cuenta := "5100", descripcion := "Desc B", nit := "111", nombre := "B",
     fecha := "", digVer := "", centroCosto := "", saldoAcumulado := "" }]

/-- The provider document the example-description batch produces. -/
def docEjemploDesc : ProveedorDoc :=
  { id := "111", uid := "u", description := "", name := "A",
    PUC := ["5100"], defaultPUC := "5100", personType := "Person",
    idType := "13", cost_center := "", accumulated_balance := "",
    transactions := [] }

/-- Example batch with a company-range NIT (nine digits starting `9`). -/
def filasEjemploNIT : List Row :=
  [{ cuenta := "5100", descripcion := "D", nit := "900123456", nombre := "A",
     fecha := "", digVer := "", centroCosto := "", saldoAcumulado := "" }]

/-- The provider document the company-NIT example batch produces. -/
def docEjemploNIT : ProveedorDoc :=
  { id := "900123456", uid := "u", description := "D", name := "A",
    PUC := ["5100"], defaultPUC := "5100", personType := "Company",
    idType := "31", cost_center := "", accumulated_balance := "",
    transactions := [] }

end Proveedores

namespace Helpers

/-- `find?` returning `some a` splits the list around the first hit. -/
theorem find?_split {α : Type} (p : α → Bool) :
    ∀ (l : List α) (a : α), l.find? p = some a →
      ∃ pre post, l = pre ++ a :: post ∧ p a = true ∧ ∀ u ∈ pre, p u = false := by
  intro l
  induction l with
  | nil => intro a h; simp [List.find?] at h
  | cons x xs ih =>
    intro a h
    by_cases hx : p x
    · rw [List.find?_cons_of_pos _ hx] at h
      cases h
      exact ⟨[], xs, rfl, hx, by simp⟩
    · rw [List.find?_cons_of_neg _ hx] at h
      obtain ⟨pre, post, heq, hpa, hpre⟩ := ih a h
      refine ⟨x :: pre, post, by rw [heq]; rfl, hpa, ?_⟩
      intro u hu
      rcases List.mem_cons.mp hu with rfl | hu
      · simpa using hx
      · exact hpre u hu

/-- A list is a Boolean prefix of itself. -/
theorem isPrefixOf_self {α : Type} [BEq α] [LawfulBEq α] :
    ∀ (l : List α), l.isPrefixOf l = true := by
  intro l
  induction l with
  | nil => rfl
  | cons x xs ih => simp [List.isPrefixOf, ih]

/-- Filtering twice with the same predicate filters once. -/
theorem filter_idem {α : Type} (p : α → Bool) (l : List α) :
    (l.filter p).filter p = l.filter p := by
  induction l with
  | nil => rfl
  | cons x xs ih =>
    by_cases h : p x <;> simp [List.filter_cons, h, ih]

end Helpers

namespace Py

/-- Every character of a digit-filtered string passes `pyIsDigit`. -/
theorem filterDigits_chars (s : String) :
    ∀ c ∈ (filterDigits s).data, pyIsDigit c = true := by
  intro c hc
  exact (List.mem_filter.mp hc).2

/-- `filterDigits` is idempotent. -/
theorem filterDigits_idem (s : String) :
    filterDigits (filterDigits s) = filterDigits s := by
  show String.mk ((s.data.filter pyIsDigit).filter pyIsDigit) =
    String.mk (s.data.filter pyIsDigit)
  rw [Helpers.filter_idem]

end Py

section Scratch

open Py

example : pyStrip "  hola \t" = "hola" := by decide
example : pySplitWs " a  bc  " = ["a", "bc"] := by decide
example : substrB "12" "x123" = true := by decide
example : substrB "" "abc" = true := by decide
example : substrB "ab" "a b" = false := by decide
example : splitextRoot "a.b.zip" = "a.b" := by decide
example : splitextRoot "..zip" = "..zip" := by decide
example : splitextRoot ".zip" = ".zip" := by decide
example : splitextRoot "foo." = "foo" := by decide
example : pyEndsWith "f.zip" ".zip" = true := by decide
example : filterDigits "900.123.456-7" = "9001234567" := by decide

example : Difflib.ratioPair "abce".data "abcd".data = (6, 8) := by decide
example : Difflib.get_close_matches1 "abcd" ["abce", "xyz"] = some "abce" := by decide
example : Difflib.get_close_matches1 "abcd" ["xyz"] = none := by decide

example : Causaciones.extraer_id_factura "Factura No 000123 Servicio" =
    .token "000123" := by decide
example : Causaciones.extraer_id_factura "  " = .entero0 := by decide
example : Causaciones.extraer_id_factura "sin nada" = .ninguno := by decide

example : Causaciones.buscar_zip_similar ["12.zip", "123.zip"] "123" =
    some "12.zip" := by decide
example : Causaciones.buscar_zip_similar ["FV123.zip"] "123" =
    some "FV123.zip" := by decide
example : Causaciones.buscar_zip_similar [] "123" = none := by decide
example : Causaciones.buscar_zip_similar ["abce.zip"] "abcd" =
    some "abce.zip" := by decide

example :
    Proveedores.procesar_archivos_csv "u"
      [{ cuenta := "5100", descripcion := "", nit := "111", nombre := "A",
         fecha := "", digVer := "", centroCosto := "", saldoAcumulado := "" },
       { cuenta := "5100", descripcion := "B", nit := "111", nombre := "B",
         fecha := "", digVer := "", centroCosto := "", saldoAcumulado := "" },
       { cuenta := "6200", descripcion := "C", nit := "111", nombre := "C",
         fecha := "", digVer := "", centroCosto := "", saldoAcumulado := "" }]
      |>.1.map (·.PUC) = [["5100", "6200"]] := by decide

end Scratch

/-! ## Claim C9 — identifier cleaning -/

/-- C9 (counterexample): `limpiar_nit` keeps the superscript-two character
`²`, which Python's `str.isdigit` accepts but which is not an ASCII digit
(`Char.isDigit` is the ASCII test); and the provider-module variant of
`limpiar_nit` returns a non-string (`None`) input unchanged instead of the
empty string. -/
theorem claim_C9_counterexample :
    Causaciones.limpiar_nit (some "²") = "²" ∧ '²'.isDigit = false ∧
    Proveedores.limpiar_nit none = none := by
  refine ⟨by decide, by decide, rfl⟩

/-- C9 (amended): for every string `s`, `limpiar_nit s` contains only
characters accepted by Python's `str.isdigit` (which include non-ASCII
digit characters such as superscripts, not only ASCII digits);
`limpiar_nit` is idempotent and total; the `causaciones` variant maps
`None` and the empty string to the empty string, while the `proveedores`
variant digit-filters strings (returning non-strings unchanged); the raw
tax-id `"900.123.456-7"` yields `"9001234567"`. -/
theorem claim_C9_limpiar_nit (s : String) :
    (∀ c ∈ (Causaciones.limpiar_nit (some s)).data, Py.pyIsDigit c = true) ∧
    Causaciones.limpiar_nit (some (Causaciones.limpiar_nit (some s))) =
      Causaciones.limpiar_nit (some s) ∧
    Causaciones.limpiar_nit none = "" ∧
    Causaciones.limpiar_nit (some "") = "" ∧
    Proveedores.limpiar_nit (some s) =
      some (Causaciones.limpiar_nit (some s)) ∧
    Causaciones.limpiar_nit (some "900.123.456-7") = "9001234567" := by
  refine ⟨?_, ?_, rfl, rfl, rfl, by decide⟩
  · exact Py.filterDigits_chars s
  · exact Py.filterDigits_idem s

/-- C9 witness: the amended theorem evaluated on the spec's scenario
input. -/
theorem claim_C9_witness :
    Causaciones.limpiar_nit (some "900.123.456-7") = "9001234567" :=
  (claim_C9_limpiar_nit "900.123.456-7").2.2.2.2.2

/-! ## Claim C8 — reference-token extraction -/

/-- C8: `extraer_id_factura` returns the integer sentinel `0` exactly for
descriptions that strip to the empty string; otherwise it returns the
first whitespace-delimited token containing a digit (every earlier token
contains none), and yields no value (`None`) — rather than raising — when
no token contains a digit; the description
`"Factura No 000123 Servicio"` yields the token `"000123"`, the first
token containing a digit. -/
theorem claim_C8_extraer_id_factura (s : String) :
    (Causaciones.extraer_id_factura s = .entero0 ↔ Py.pyStrip s = "") ∧
    (∀ t, Causaciones.extraer_id_factura s = .token t →
      ∃ pre post, Py.pySplitWs (Py.pyStrip s) = pre ++ t :: post ∧
        Causaciones.contieneDigito t = true ∧
        ∀ u ∈ pre, Causaciones.contieneDigito u = false) ∧
    (Causaciones.extraer_id_factura s = .ninguno ↔
      Py.pyStrip s ≠ "" ∧
        ∀ u ∈ Py.pySplitWs (Py.pyStrip s),
          Causaciones.contieneDigito u = false) ∧
    Causaciones.extraer_id_factura "Factura No 000123 Servicio" =
      .token "000123" := by
  refine ⟨?_, ?_, ?_, by decide⟩
  · unfold Causaciones.extraer_id_factura
    by_cases h : Py.pyStrip s = ""
    · simp [h]
    · rw [if_neg h]
      constructor
      · intro hcontra
        cases hfind : (Py.pySplitWs (Py.pyStrip s)).find?
            Causaciones.contieneDigito <;> simp [hfind] at hcontra
      · intro h'; exact absurd h' h
  · intro t ht
    unfold Causaciones.extraer_id_factura at ht
    by_cases h : Py.pyStrip s = ""
    · simp [h] at ht
    · simp only [h, if_false] at ht
      cases hfind : (Py.pySplitWs (Py.pyStrip s)).find?
          Causaciones.contieneDigito with
      | none => simp [hfind] at ht
      | some u =>
        simp only [hfind] at ht
        cases ht
        obtain ⟨pre, post, heq, hp, hpre⟩ :=
          Helpers.find?_split _ _ _ hfind
        exact ⟨pre, post, heq, hp, hpre⟩
  · unfold Causaciones.extraer_id_factura
    by_cases h : Py.pyStrip s = ""
    · rw [if_pos h]
      constructor
      · intro hc; cases hc
      · rintro ⟨hne, -⟩; exact absurd h hne
    · rw [if_neg h]
      cases hfind : (Py.pySplitWs (Py.pyStrip s)).find?
          Causaciones.contieneDigito with
      | none =>
        have hall := List.find?_eq_none.mp hfind
        simp only [hfind]
        constructor
        · intro _; exact ⟨h, fun u hu => by simpa using hall u hu⟩
        · intro _; trivial
      | some u =>
        simp only [hfind]
        constructor
        · intro hc; exact Causaciones.IdFactura.noConfusion hc
        · rintro ⟨-, hall⟩
          have hu := List.find?_some hfind
          have hfalse := hall u (List.mem_of_find?_eq_some hfind)
          rw [hfalse] at hu; cases hu

/-- C8 witness: the theorem evaluated on the spec's scenario input. -/
theorem claim_C8_witness :
    Causaciones.extraer_id_factura "Factura No 000123 Servicio" =
      .token "000123" :=
  (claim_C8_extraer_id_factura "x").2.2.2

/-! ## Claims C3, C4 — archive matching -/

namespace Causaciones

/-- When the pass-1 containment scan finds a candidate, `buscar_zip_similar`
returns it (the approximate-match pass is not consulted). -/
theorem buscar_eq_of_find? (listaZips : List String) (idFactura : String)
    (hid : idFactura ≠ "") (z : String)
    (hz : (listaZips.filter (fun z => z ≠ "")).find?
        (fun z => contencion (Py.pyStrip (Py.pyLower idFactura)) z) = some z) :
    buscar_zip_similar listaZips idFactura = some z := by
  have hlz : listaZips ≠ [] := by
    intro h; rw [h] at hz; simp at hz
  have hcond : ¬(idFactura = "" ∨ listaZips = []) := by
    push_neg; exact ⟨hid, hlz⟩
  simp only [buscar_zip_similar, if_neg hcond, hz]

end Causaciones

/-- C3: for every non-empty identifier, when the pass-1 containment scan
over the (order-preserving, empty-name-filtered) candidates finds a
candidate — i.e. some candidate's normalized base contains the normalized
identifier as a substring or is contained in it — `buscar_zip_similar`
returns that first such candidate, and never a result of the
approximate-match (difflib) pass, whatever the similarity ratios are. -/
theorem claim_C3_containment_beats_fuzzy
    (listaZips : List String) (idFactura : String)
    (hid : idFactura ≠ "") (z : String)
    (hz : (listaZips.filter (fun z => z ≠ "")).find?
        (fun z => Causaciones.contencion (Py.pyStrip (Py.pyLower idFactura)) z)
        = some z) :
    Causaciones.buscar_zip_similar listaZips idFactura = some z :=
  Causaciones.buscar_eq_of_find? listaZips idFactura hid z hz

/-- C3 witness. -/
theorem claim_C3_witness :
    Causaciones.buscar_zip_similar ["FV123.zip"] "123" = some "FV123.zip" :=
  claim_C3_containment_beats_fuzzy ["FV123.zip"] "123" (by decide)
    "FV123.zip" (by decide)

/-- C4 (counterexample): the candidate list `["12.zip", "123.zip"]`
contains a name whose normalized base equals the identifier `"123"`, yet
`buscar_zip_similar` returns `"12.zip"` — the *earlier* candidate whose
base `"12"` is merely contained in the identifier — not that exact
name. -/
theorem claim_C4_counterexample :
    Causaciones.baseZip "123.zip" = Py.pyStrip (Py.pyLower "123") ∧
    "123.zip" ∈ ["12.zip", "123.zip"] ∧
    Causaciones.buscar_zip_similar ["12.zip", "123.zip"] "123" =
      some "12.zip" ∧
    "12.zip" ≠ "123.zip" := by decide

/-- C4 (amended): if some candidate's normalized base *equals* the
normalized identifier, then a pass-1 containment match exists, and
`buscar_zip_similar` returns the first candidate (in input order, after
dropping empty names) whose base contains the identifier or is contained
in it; in particular it returns the exact-base name whenever that name is
the first such candidate. -/
theorem claim_C4_exact_base
    (listaZips : List String) (idFactura zStar : String)
    (hid : idFactura ≠ "")
    (hmem : zStar ∈ listaZips)
    (hbase : Causaciones.baseZip zStar = Py.pyStrip (Py.pyLower idFactura))
    (hne : Py.pyStrip (Py.pyLower idFactura) ≠ "") :
    (∃ z, (listaZips.filter (fun z => z ≠ "")).find?
        (fun z => Causaciones.contencion (Py.pyStrip (Py.pyLower idFactura)) z)
          = some z ∧
      Causaciones.buscar_zip_similar listaZips idFactura = some z ∧
      Causaciones.contencion (Py.pyStrip (Py.pyLower idFactura)) z = true) ∧
    ((listaZips.filter (fun z => z ≠ "")).find?
        (fun z => Causaciones.contencion (Py.pyStrip (Py.pyLower idFactura)) z)
          = some zStar →
      Causaciones.buscar_zip_similar listaZips idFactura = some zStar) := by
  constructor
  · have hzne : zStar ≠ "" := by
      intro hcontra
      rw [hcontra] at hbase
      exact hne (hbase ▸ rfl)
    have hmemf : zStar ∈ listaZips.filter (fun z => z ≠ "") := by
      rw [List.mem_filter]
      exact ⟨hmem, by simpa using hzne⟩
    have hcont : Causaciones.contencion
        (Py.pyStrip (Py.pyLower idFactura)) zStar = true := by
      unfold Causaciones.contencion
      rw [hbase]
      have : Py.substrB (Py.pyStrip (Py.pyLower idFactura))
          (Py.pyStrip (Py.pyLower idFactura)) = true := by
        unfold Py.substrB
        rw [List.any_eq_true]
        refine ⟨(Py.pyStrip (Py.pyLower idFactura)).data, ?_, ?_⟩
        · exact (List.mem_tails _ _).mpr (List.suffix_refl _)
        · exact Helpers.isPrefixOf_self _
      rw [this]; rfl
    have hsome : ((listaZips.filter (fun z => z ≠ "")).find?
        (fun z => Causaciones.contencion (Py.pyStrip (Py.pyLower idFactura)) z)).isSome := by
      rw [List.find?_isSome]
      exact ⟨zStar, hmemf, hcont⟩
    obtain ⟨z, hz⟩ := Option.isSome_iff_exists.mp hsome
    exact ⟨z, hz, Causaciones.buscar_eq_of_find? listaZips idFactura hid z hz,
      List.find?_some hz⟩
  · intro hz
    exact Causaciones.buscar_eq_of_find? listaZips idFactura hid zStar hz

/-- C4 witness: `"123.zip"` is the first containment match for `"123"`,
so the exact-base name is returned. -/
theorem claim_C4_witness :
    Causaciones.buscar_zip_similar ["123.zip"] "123" = some "123.zip" :=
  (claim_C4_exact_base ["123.zip"] "123" "123.zip" (by decide) (by decide)
    (by decide) (by decide)).2 (by decide)

/-! ## Claim C6 — extracted-field dispatch -/

/-- C6: for a successfully parsed document, `obtener_descripcion_dian_desde_pdf`
returns the single collected value unwrapped when exactly one non-empty
cell was collected under the matched header column, the collected values
joined by the literal `" | "` separator when more than one, and `none`
(a logged no-description condition, not an error) when zero were
collected; a parse exception likewise yields `none`. -/
theorem claim_C6_description_dispatch (paginas : List Causaciones.Pagina) :
    (Causaciones.descripcionesDePaginas paginas = [] →
      Causaciones.obtener_descripcion_dian_desde_pdf (.ok paginas) = none) ∧
    (∀ d, Causaciones.descripcionesDePaginas paginas = [d] →
      Causaciones.obtener_descripcion_dian_desde_pdf (.ok paginas) = some d) ∧
    (2 ≤ (Causaciones.descripcionesDePaginas paginas).length →
      Causaciones.obtener_descripcion_dian_desde_pdf (.ok paginas) =
        some (String.intercalate " | "
          (Causaciones.descripcionesDePaginas paginas))) ∧
    (∀ e, Causaciones.obtener_descripcion_dian_desde_pdf (.error e) = none) := by
  refine ⟨?_, ?_, ?_, fun _ => rfl⟩
  · intro h
    simp [Causaciones.obtener_descripcion_dian_desde_pdf, h]
  · intro d h
    simp [Causaciones.obtener_descripcion_dian_desde_pdf, h]
  · intro h
    have hne : Causaciones.descripcionesDePaginas paginas ≠ [] := by
      intro hc; rw [hc] at h; exact absurd h (by decide)
    have hlen : (Causaciones.descripcionesDePaginas paginas).length ≠ 1 := by
      omega
    simp [Causaciones.obtener_descripcion_dian_desde_pdf, hne, hlen]

/-- C6 witness: a table whose header row matches `Descripción` and whose
later rows contribute the cells `"A"` and `"B"` yields `"A | B"`. -/
theorem claim_C6_witness :
    Causaciones.obtener_descripcion_dian_desde_pdf
      (.ok [[[[some "Descripción"], [some "A"], [some "B"]]]]) =
      some "A | B" :=
  (claim_C6_description_dispatch
    [[[[some "Descripción"], [some "A"], [some "B"]]]]).2.2.1 (by decide)

/-! ## Claim C5 — extractor cleanup -/

namespace Helpers

/-- The removal fold never adds a file: a name absent from the accumulator
stays absent. -/
theorem not_mem_foldl_remove_of_not_mem :
    ∀ (l : List String) (acc : List String) (f : String), f ∉ acc →
      f ∉ l.foldl (fun a x => a.filter (fun g => g ≠ x)) acc := by
  intro l
  induction l with
  | nil => intro acc f h; simpa using h
  | cons x xs ih =>
    intro acc f h
    simp only [List.foldl_cons]
    exact ih _ f (fun hc => h (List.mem_filter.mp hc).1)

/-- Every name occurring in the removal list is absent from the result of
the removal fold. -/
theorem not_mem_foldl_remove :
    ∀ (l : List String) (acc : List String) (f : String), f ∈ l →
      f ∉ l.foldl (fun a x => a.filter (fun g => g ≠ x)) acc := by
  intro l
  induction l with
  | nil => intro acc f h; simp at h
  | cons x xs ih =>
    intro acc f h
    simp only [List.foldl_cons]
    by_cases hfx : f = x
    · refine not_mem_foldl_remove_of_not_mem xs _ f ?_
      intro hc
      have := (List.mem_filter.mp hc).2
      simp [hfx] at this
    · exact ih _ f (by
        rcases List.mem_cons.mp h with h' | h'
        · exact absurd h' hfx
        · exact h')

end Helpers

/-- C5: whatever `extraer_descripcion_dian` returns — an extracted value,
`none` for "no data found", or `none` because an exception occurred while
opening or parsing the embedded document (the `parsePdf` oracle is
universally quantified, so every outcome including `Except.error` is
covered) — every file unpacked from the matched archive is absent from the
working directory afterwards; and when no archive matches, the working
directory is untouched. -/
theorem claim_C5_cleanup (listing : List String)
    (contenidoZip : String → List String)
    (parsePdf : String → Except String (List Causaciones.Pagina))
    (idFactura : String) (fs : List String) :
    (∀ z, Causaciones.buscar_zip_similar
        (Causaciones.obtener_archivos_zip listing) idFactura = some z →
      ∀ f ∈ contenidoZip z,
        f ∉ (Causaciones.extraer_descripcion_dian listing contenidoZip
          parsePdf idFactura fs).2) ∧
    (Causaciones.buscar_zip_similar (Causaciones.obtener_archivos_zip listing)
        idFactura = none →
      (Causaciones.extraer_descripcion_dian listing contenidoZip parsePdf
        idFactura fs).2 = fs) := by
  constructor
  · intro z hz f hf
    simp only [Causaciones.extraer_descripcion_dian, hz]
    exact Helpers.not_mem_foldl_remove _ _ f hf
  · intro hz
    simp only [Causaciones.extraer_descripcion_dian, hz]

/-- C5 witness: a batch whose matched archive unpacks `"x.pdf"`, with a
parser that raises, still leaves no trace of `"x.pdf"`. -/
theorem claim_C5_witness :
    "x.pdf" ∉ (Causaciones.extraer_descripcion_dian ["a.zip"]
      (fun _ => ["x.pdf"]) (fun _ => .error "boom") "a" []).2 :=
  (claim_C5_cleanup ["a.zip"] (fun _ => ["x.pdf"]) (fun _ => .error "boom")
    "a" []).1 "a.zip" (by decide) "x.pdf" (by decide)

/-! ## Claim C1 — insert-if-absent invoice upload -/

namespace Causaciones

/-- The existence check of the loop succeeds exactly when the collection
holds the key. -/
theorem find?_clave_isSome (db : List Invoice) (u i : String) :
    (db.find? (fun d => d.uid == u && d.invoiceId == i)).isSome = true ↔
      tieneClave db u i := by
  rw [List.find?_isSome]
  simp [tieneClave]

/-- Step equation: blank-typed rows are skipped. -/
theorem paso_skip_tipo (uid : String) (dian : String → Option String)
    (st : EstadoFacturas) (f : FilaFactura) (h : f.tipo = "") :
    pasoFactura uid dian st f = st := by
  simp only [pasoFactura, if_pos h]

/-- Step equation: rows of a foreign invoice type are skipped. -/
theorem paso_skip_sub (uid : String) (dian : String → Option String)
    (st : EstadoFacturas) (f : FilaFactura) (h1 : ¬f.tipo = "")
    (h2 : (Py.substrB "Servicio" (Py.pyStrip f.tipo) ||
      Py.substrB "Arrendamiento" (Py.pyStrip f.tipo)) = false) :
    pasoFactura uid dian st f = st := by
  simp only [pasoFactura, if_neg h1]
  rw [if_neg]
  simp [h2]

/-- Step equation: rows whose extracted description id was already seen
are skipped. -/
theorem paso_skip_proc (uid : String) (dian : String → Option String)
    (st : EstadoFacturas) (f : FilaFactura) (h1 : ¬f.tipo = "")
    (h2 : (Py.substrB "Servicio" (Py.pyStrip f.tipo) ||
      Py.substrB "Arrendamiento" (Py.pyStrip f.tipo)) = true)
    (h3 : extraer_id_factura (Py.pyStrip f.descripcionArchivo) ∈
      st.procesadas) :
    pasoFactura uid dian st f = st := by
  simp only [pasoFactura, if_neg h1, h2, if_pos h3]
  rfl

/-- Step equation: rows whose `(UID, invoiceId)` key is already persisted
only record the description id — no insert, no update. -/
theorem paso_skip_found (uid : String) (dian : String → Option String)
    (st : EstadoFacturas) (f : FilaFactura) (h1 : ¬f.tipo = "")
    (h2 : (Py.substrB "Servicio" (Py.pyStrip f.tipo) ||
      Py.substrB "Arrendamiento" (Py.pyStrip f.tipo)) = true)
    (h3 : extraer_id_factura (Py.pyStrip f.descripcionArchivo) ∉
      st.procesadas)
    (h4 : (st.db.find? (fun d =>
      d.uid == uid && d.invoiceId == Py.pyStrip f.idFactura)).isSome = true) :
    pasoFactura uid dian st f =
      { st with procesadas := st.procesadas ++
          [extraer_id_factura (Py.pyStrip f.descripcionArchivo)] } := by
  simp only [pasoFactura, if_neg h1, h2, if_neg h3, if_pos h4]
  rfl

/-- Step equation: rows whose `(UID, invoiceId)` key is absent insert the
new document at the end of the collection. -/
theorem paso_insert (uid : String) (dian : String → Option String)
    (st : EstadoFacturas) (f : FilaFactura) (h1 : ¬f.tipo = "")
    (h2 : (Py.substrB "Servicio" (Py.pyStrip f.tipo) ||
      Py.substrB "Arrendamiento" (Py.pyStrip f.tipo)) = true)
    (h3 : extraer_id_factura (Py.pyStrip f.descripcionArchivo) ∉
      st.procesadas)
    (h4 : (st.db.find? (fun d =>
      d.uid == uid && d.invoiceId == Py.pyStrip f.idFactura)).isSome = false) :
    pasoFactura uid dian st f =
      { db := st.db ++ [facturaDoc uid dian f],
        procesadas := st.procesadas ++
          [extraer_id_factura (Py.pyStrip f.descripcionArchivo)],
        creadas := st.creadas + 1 } := by
  simp only [pasoFactura, if_neg h1, h2, if_neg h3, h4]
  rfl

/-- The collection only ever grows by appending: one step. -/
theorem paso_db_append (uid : String) (dian : String → Option String)
    (st : EstadoFacturas) (f : FilaFactura) :
    ∃ tl, (pasoFactura uid dian st f).db = st.db ++ tl := by
  by_cases h1 : f.tipo = ""
  · exact ⟨[], by rw [paso_skip_tipo uid dian st f h1]; simp⟩
  by_cases h2 : (Py.substrB "Servicio" (Py.pyStrip f.tipo) ||
      Py.substrB "Arrendamiento" (Py.pyStrip f.tipo)) = true
  · by_cases h3 : extraer_id_factura (Py.pyStrip f.descripcionArchivo) ∈
        st.procesadas
    · exact ⟨[], by rw [paso_skip_proc uid dian st f h1 h2 h3]; simp⟩
    · by_cases h4 : (st.db.find? (fun d =>
          d.uid == uid && d.invoiceId == Py.pyStrip f.idFactura)).isSome = true
      · exact ⟨[], by rw [paso_skip_found uid dian st f h1 h2 h3 h4]; simp⟩
      · exact ⟨[facturaDoc uid dian f], by
          rw [paso_insert uid dian st f h1 h2 h3 (by simpa using h4)]⟩
  · exact ⟨[], by
      rw [paso_skip_sub uid dian st f h1 (by simpa using h2)]; simp⟩

/-- The collection only ever grows by appending: whole batch. -/
theorem fold_db_append (uid : String) (dian : String → Option String) :
    ∀ (filas : List FilaFactura) (st : EstadoFacturas),
      ∃ tl, (filas.foldl (pasoFactura uid dian) st).db = st.db ++ tl := by
  intro filas
  induction filas with
  | nil => intro st; exact ⟨[], by simp⟩
  | cons f fs ih =>
    intro st
    obtain ⟨tl1, h1⟩ := paso_db_append uid dian st f
    obtain ⟨tl2, h2⟩ := ih (pasoFactura uid dian st f)
    exact ⟨tl1 ++ tl2, by
      simp only [List.foldl_cons, h2, h1, List.append_assoc]⟩

/-- Documents already persisted survive the batch. -/
theorem fold_db_mem (uid : String) (dian : String → Option String)
    (filas : List FilaFactura) (st : EstadoFacturas) (d : Invoice)
    (hd : d ∈ st.db) : d ∈ (filas.foldl (pasoFactura uid dian) st).db := by
  obtain ⟨tl, h⟩ := fold_db_append uid dian filas st
  rw [h]
  exact List.mem_append_left _ hd

/-- Keys already persisted survive the batch. -/
theorem fold_clave_mem (uid : String) (dian : String → Option String)
    (filas : List FilaFactura) (st : EstadoFacturas) (u i : String)
    (h : tieneClave st.db u i) :
    tieneClave (filas.foldl (pasoFactura uid dian) st).db u i := by
  obtain ⟨d, hd, hui⟩ := h
  exact ⟨d, fold_db_mem uid dian filas st d hd, hui⟩

/-- A failed existence check means the key is genuinely absent. -/
theorem clave_not_mem_of_find?_false (db : List Invoice) (u i : String)
    (h : (db.find? (fun d => d.uid == u && d.invoiceId == i)).isSome = false) :
    (u, i) ∉ clavesFacturas db := by
  intro hc
  obtain ⟨d, hd, hdk⟩ := List.mem_map.mp hc
  have hnone : db.find? (fun d => d.uid == u && d.invoiceId == i) = none := by
    cases hfind : db.find? (fun d => d.uid == u && d.invoiceId == i) with
    | none => rfl
    | some x => rw [hfind] at h; cases h
  have := List.find?_eq_none.mp hnone d hd
  apply this
  have h1 : d.uid = u := congrArg Prod.fst hdk
  have h2 : d.invoiceId = i := congrArg Prod.snd hdk
  simp [h1, h2]

/-- One step preserves key uniqueness of the collection. -/
theorem paso_claves_nodup (uid : String) (dian : String → Option String)
    (st : EstadoFacturas) (f : FilaFactura)
    (h : (clavesFacturas st.db).Nodup) :
    (clavesFacturas (pasoFactura uid dian st f).db).Nodup := by
  by_cases h1 : f.tipo = ""
  · rw [paso_skip_tipo uid dian st f h1]; exact h
  by_cases h2 : (Py.substrB "Servicio" (Py.pyStrip f.tipo) ||
      Py.substrB "Arrendamiento" (Py.pyStrip f.tipo)) = true
  · by_cases h3 : extraer_id_factura (Py.pyStrip f.descripcionArchivo) ∈
        st.procesadas
    · rw [paso_skip_proc uid dian st f h1 h2 h3]; exact h
    · by_cases h4 : (st.db.find? (fun d =>
          d.uid == uid && d.invoiceId == Py.pyStrip f.idFactura)).isSome = true
      · rw [paso_skip_found uid dian st f h1 h2 h3 h4]; exact h
      · rw [paso_insert uid dian st f h1 h2 h3 (by simpa using h4)]
        have hnotin := clave_not_mem_of_find?_false st.db uid
          (Py.pyStrip f.idFactura) (by simpa using h4)
        show (clavesFacturas (st.db ++ [facturaDoc uid dian f])).Nodup
        have hmap : clavesFacturas (st.db ++ [facturaDoc uid dian f]) =
            clavesFacturas st.db ++ [(uid, Py.pyStrip f.idFactura)] := by
          simp [clavesFacturas, facturaDoc]
        rw [hmap]
        rw [List.nodup_append]
        refine ⟨h, List.nodup_singleton _, ?_⟩
        intro k hk hk'
        rcases List.mem_singleton.mp hk' with rfl
        exact hnotin hk
  · rw [paso_skip_sub uid dian st f h1 (by simpa using h2)]; exact h

/-- The whole batch preserves key uniqueness of the collection. -/
theorem fold_claves_nodup (uid : String) (dian : String → Option String) :
    ∀ (filas : List FilaFactura) (st : EstadoFacturas),
      (clavesFacturas st.db).Nodup →
      (clavesFacturas (filas.foldl (pasoFactura uid dian) st).db).Nodup := by
  intro filas
  induction filas with
  | nil => intro st h; exact h
  | cons f fs ih =>
    intro st h
    simp only [List.foldl_cons]
    exact ih _ (paso_claves_nodup uid dian st f h)

/-- A row whose `(UID, invoiceId)` key is already persisted never changes
the collection (skip, not update). -/
theorem paso_db_unchanged_of_clave (uid : String)
    (dian : String → Option String) (st : EstadoFacturas) (f : FilaFactura)
    (h : tieneClave st.db uid (Py.pyStrip f.idFactura)) :
    (pasoFactura uid dian st f).db = st.db := by
  by_cases h1 : f.tipo = ""
  · rw [paso_skip_tipo uid dian st f h1]
  by_cases h2 : (Py.substrB "Servicio" (Py.pyStrip f.tipo) ||
      Py.substrB "Arrendamiento" (Py.pyStrip f.tipo)) = true
  · by_cases h3 : extraer_id_factura (Py.pyStrip f.descripcionArchivo) ∈
        st.procesadas
    · rw [paso_skip_proc uid dian st f h1 h2 h3]
    · have h4 : (st.db.find? (fun d =>
          d.uid == uid && d.invoiceId == Py.pyStrip f.idFactura)).isSome =
            true :=
        (find?_clave_isSome st.db uid (Py.pyStrip f.idFactura)).mpr h
      rw [paso_skip_found uid dian st f h1 h2 h3 h4]
  · rw [paso_skip_sub uid dian st f h1 (by simpa using h2)]

/-- Re-running a batch against a collection that already holds every key
the batch would produce leaves that collection exactly unchanged. -/
theorem fold_db_noop (uid : String) (dian : String → Option String) :
    ∀ (filas : List FilaFactura) (procs : List IdFactura) (c₁ c₂ : Nat)
      (db db' : List Invoice),
      (∀ u i, tieneClave
          (filas.foldl (pasoFactura uid dian) ⟨db, procs, c₁⟩).db u i →
        tieneClave db' u i) →
      (filas.foldl (pasoFactura uid dian) ⟨db', procs, c₂⟩).db = db' := by
  intro filas
  induction filas with
  | nil => intro procs c₁ c₂ db db' _; rfl
  | cons f fs ih =>
    intro procs c₁ c₂ db db' hsub
    simp only [List.foldl_cons] at hsub ⊢
    by_cases h1 : f.tipo = ""
    · rw [paso_skip_tipo uid dian ⟨db, procs, c₁⟩ f h1] at hsub
      rw [paso_skip_tipo uid dian ⟨db', procs, c₂⟩ f h1]
      exact ih procs c₁ c₂ db db' hsub
    by_cases h2 : (Py.substrB "Servicio" (Py.pyStrip f.tipo) ||
        Py.substrB "Arrendamiento" (Py.pyStrip f.tipo)) = true
    · by_cases h3 : extraer_id_factura (Py.pyStrip f.descripcionArchivo) ∈
          procs
      · rw [paso_skip_proc uid dian ⟨db, procs, c₁⟩ f h1 h2 h3] at hsub
        rw [paso_skip_proc uid dian ⟨db', procs, c₂⟩ f h1 h2 h3]
        exact ih procs c₁ c₂ db db' hsub
      · by_cases h4 : (db.find? (fun d =>
            d.uid == uid && d.invoiceId == Py.pyStrip f.idFactura)).isSome =
              true
        · rw [paso_skip_found uid dian ⟨db, procs, c₁⟩ f h1 h2 h3 h4] at hsub
          have hk : tieneClave db uid (Py.pyStrip f.idFactura) :=
            (find?_clave_isSome db uid (Py.pyStrip f.idFactura)).mp h4
          have hk1 : tieneClave (fs.foldl (pasoFactura uid dian)
              ⟨db, procs ++ [extraer_id_factura (Py.pyStrip
                f.descripcionArchivo)], c₁⟩).db uid
              (Py.pyStrip f.idFactura) :=
            fold_clave_mem uid dian fs _ uid (Py.pyStrip f.idFactura) hk
          have h4' : (db'.find? (fun d =>
              d.uid == uid && d.invoiceId == Py.pyStrip f.idFactura)).isSome =
                true :=
            (find?_clave_isSome db' uid (Py.pyStrip f.idFactura)).mpr
              (hsub uid (Py.pyStrip f.idFactura) hk1)
          rw [paso_skip_found uid dian ⟨db', procs, c₂⟩ f h1 h2 h3 h4']
          exact ih (procs ++ [extraer_id_factura (Py.pyStrip
            f.descripcionArchivo)]) c₁ c₂ db db' hsub
        · rw [paso_insert uid dian ⟨db, procs, c₁⟩ f h1 h2 h3
            (by simpa using h4)] at hsub
          have hk : tieneClave (db ++ [facturaDoc uid dian f]) uid
              (Py.pyStrip f.idFactura) :=
            ⟨facturaDoc uid dian f, List.mem_append_right _ (by simp),
              rfl, rfl⟩
          have hk1 : tieneClave (fs.foldl (pasoFactura uid dian)
              ⟨db ++ [facturaDoc uid dian f],
                procs ++ [extraer_id_factura (Py.pyStrip
                  f.descripcionArchivo)], c₁ + 1⟩).db uid
              (Py.pyStrip f.idFactura) :=
            fold_clave_mem uid dian fs _ uid (Py.pyStrip f.idFactura) hk
          have h4' : (db'.find? (fun d =>
              d.uid == uid && d.invoiceId == Py.pyStrip f.idFactura)).isSome =
                true :=
            (find?_clave_isSome db' uid (Py.pyStrip f.idFactura)).mpr
              (hsub uid (Py.pyStrip f.idFactura) hk1)
          rw [paso_skip_found uid dian ⟨db', procs, c₂⟩ f h1 h2 h3 h4']
          exact ih (procs ++ [extraer_id_factura (Py.pyStrip
            f.descripcionArchivo)]) (c₁ + 1) c₂
            (db ++ [facturaDoc uid dian f]) db' hsub
    · rw [paso_skip_sub uid dian ⟨db, procs, c₁⟩ f h1
        (by simpa using h2)] at hsub
      rw [paso_skip_sub uid dian ⟨db', procs, c₂⟩ f h1 (by simpa using h2)]
      exact ih procs c₁ c₂ db db' hsub

end Causaciones

/-- C1: the invoice upload is strictly insert-if-absent keyed by
`(UID, invoiceId)`: (i) the collection only grows by appending new
documents — persisted documents are never modified; (ii) a row whose key
is already persisted leaves the collection untouched (skip, not update);
(iii) key uniqueness is preserved, so a batch run on a collection with at
most one document per `(UID, invoiceId)` leaves at most one document per
key — in particular exactly one for each uploaded invoice; (iv) running
the same batch a second time is a full no-op on the collection. -/
theorem claim_C1_insert_if_absent (uid : String)
    (dian : String → Option String) (filas : List Causaciones.FilaFactura)
    (db : List Causaciones.Invoice) :
    (∃ tl, (Causaciones.procesar_y_subir_facturas uid dian filas db).db =
      db ++ tl) ∧
    (∀ (st : Causaciones.EstadoFacturas) (f : Causaciones.FilaFactura),
      Causaciones.tieneClave st.db uid (Py.pyStrip f.idFactura) →
      (Causaciones.pasoFactura uid dian st f).db = st.db) ∧
    ((Causaciones.clavesFacturas db).Nodup →
      (Causaciones.clavesFacturas
        (Causaciones.procesar_y_subir_facturas uid dian filas db).db).Nodup) ∧
    (Causaciones.procesar_y_subir_facturas uid dian filas
        (Causaciones.procesar_y_subir_facturas uid dian filas db).db).db =
      (Causaciones.procesar_y_subir_facturas uid dian filas db).db := by
  refine ⟨?_, ?_, ?_, ?_⟩
  · exact Causaciones.fold_db_append uid dian filas ⟨db, [], 0⟩
  · exact fun st f h =>
      Causaciones.paso_db_unchanged_of_clave uid dian st f h
  · exact fun h => Causaciones.fold_claves_nodup uid dian filas ⟨db, [], 0⟩ h
  · exact Causaciones.fold_db_noop uid dian filas [] 0 0 db
      (Causaciones.procesar_y_subir_facturas uid dian filas db).db
      (fun _ _ h => h)

/-- C1 witness: a fresh collection, one `Servicio` row; uploading it twice
leaves the collection of the first run unchanged. -/
theorem claim_C1_witness :
    (Causaciones.clavesFacturas
      (Causaciones.procesar_y_subir_facturas "u" (fun _ => none)
        [{ tipo := "Servicio - Gasto", nit := "900123456-7",
           descripcionArchivo := "FV 1", idFactura := "F1" }] []).db).Nodup :=
  (claim_C1_insert_if_absent "u" (fun _ => none)
    [{ tipo := "Servicio - Gasto", nit := "900123456-7",
       descripcionArchivo := "FV 1", idFactura := "F1" }] []).2.2.1
    (by decide)

/-! ## Claims C2, C7, C10 — provider consolidation -/

namespace Helpers

/-- `find?` over an append when the left part already hits. -/
theorem find?_append_of_some {α : Type} (p : α → Bool) :
    ∀ (l₁ l₂ : List α) (a : α), l₁.find? p = some a →
      (l₁ ++ l₂).find? p = some a := by
  intro l₁
  induction l₁ with
  | nil => intro l₂ a h; simp [List.find?] at h
  | cons x xs ih =>
    intro l₂ a h
    by_cases hx : p x
    · rw [List.find?_cons_of_pos _ hx] at h
      cases h
      exact List.find?_cons_of_pos _ hx
    · rw [List.find?_cons_of_neg _ hx] at h
      rw [List.cons_append, List.find?_cons_of_neg _ hx]
      exact ih l₂ a h

/-- `find?` over an append when the left part misses. -/
theorem find?_append_of_none {α : Type} (p : α → Bool) :
    ∀ (l₁ l₂ : List α), l₁.find? p = none →
      (l₁ ++ l₂).find? p = l₂.find? p := by
  intro l₁
  induction l₁ with
  | nil => intro l₂ _; rfl
  | cons x xs ih =>
    intro l₂ h
    by_cases hx : p x
    · rw [List.find?_cons_of_pos _ hx] at h; cases h
    · rw [List.find?_cons_of_neg _ hx] at h
      rw [List.cons_append, List.find?_cons_of_neg _ hx]
      exact ih l₂ h

end Helpers

namespace Proveedores

/-- Acceptance spelled as the row loop's rejection test. -/
theorem aceptada_iff (r : Row) :
    aceptada r = true ↔
      ¬(limpiar_campo r.cuenta = "" ∨
        (limpiar_nit (some r.nit)).getD "" = "" ∨
        limpiar_campo r.nombre = "") := by
  simp [aceptada, not_or, and_assoc]

/-- Step equation: a row missing a required field goes to the failed
list. -/
theorem procRow_rechazada (uid : String)
    (st : List (String × ProveedorDoc) × List Row) (r : Row)
    (h : aceptada r = false) :
    procRow uid st r = (st.1, st.2 ++ [r]) := by
  have hc : limpiar_campo r.cuenta = "" ∨
      (limpiar_nit (some r.nit)).getD "" = "" ∨
      limpiar_campo r.nombre = "" := by
    rcases Decidable.em (limpiar_campo r.cuenta = "" ∨
        (limpiar_nit (some r.nit)).getD "" = "" ∨
        limpiar_campo r.nombre = "") with h' | h'
    · exact h'
    · exact absurd ((aceptada_iff r).mpr h') (by simp [h])
  simp only [procRow, if_pos hc]

/-- Step equation: an accepted row whose key is present consolidates the
existing entry in place. -/
theorem procRow_existente (uid : String)
    (st : List (String × ProveedorDoc) × List Row) (r : Row)
    (h : aceptada r = true) (d : ProveedorDoc)
    (hd : alGet st.1 ((limpiar_nit (some r.nit)).getD "") = some d) :
    procRow uid st r =
      (alUpdate st.1 ((limpiar_nit (some r.nit)).getD "")
        (consolidaProveedor r), st.2) := by
  have hc := (aceptada_iff r).mp h
  simp only [procRow, if_neg hc, hd]

/-- Step equation: an accepted row with a fresh key appends a new
provider document. -/
theorem procRow_nueva (uid : String)
    (st : List (String × ProveedorDoc) × List Row) (r : Row)
    (h : aceptada r = true)
    (hd : alGet st.1 ((limpiar_nit (some r.nit)).getD "") = none) :
    procRow uid st r =
      (st.1 ++ [((limpiar_nit (some r.nit)).getD "", nuevoProveedor uid r)],
        st.2) := by
  have hc := (aceptada_iff r).mp h
  simp only [procRow, if_neg hc, hd]

/-- Unfolding `alGet` over a cons cell. -/
theorem alGet_cons (pk : String) (pd : ProveedorDoc)
    (tl : List (String × ProveedorDoc)) (k : String) :
    alGet ((pk, pd) :: tl) k =
      if pk = k then some pd else alGet tl k := by
  by_cases h : pk = k
  · subst h; simp [alGet, List.find?_cons]
  · simp [alGet, List.find?_cons, h]

/-- Unfolding `alUpdate` over a cons cell. -/
theorem alUpdate_cons (pk : String) (pd : ProveedorDoc)
    (tl : List (String × ProveedorDoc)) (k : String)
    (f : ProveedorDoc → ProveedorDoc) :
    alUpdate ((pk, pd) :: tl) k f =
      (if pk = k then (pk, f pd) else (pk, pd)) :: alUpdate tl k f := by
  by_cases h : pk = k
  · subst h; simp [alUpdate]
  · simp [alUpdate, h]

/-- Lookup after an in-place update, at the updated key. -/
theorem alGet_alUpdate_self (k : String) (f : ProveedorDoc → ProveedorDoc) :
    ∀ (l : List (String × ProveedorDoc)),
      alGet (alUpdate l k f) k = (alGet l k).map f := by
  intro l
  induction l with
  | nil => rfl
  | cons p tl ih =>
    obtain ⟨pk, pd⟩ := p
    rw [alUpdate_cons]
    by_cases h : pk = k
    · rw [if_pos h, alGet_cons, alGet_cons, if_pos h, if_pos h]
      rfl
    · rw [if_neg h, alGet_cons, alGet_cons, if_neg h, if_neg h]
      exact ih

/-- Lookup after an in-place update, at a different key. -/
theorem alGet_alUpdate_ne (k k' : String) (f : ProveedorDoc → ProveedorDoc)
    (hne : k' ≠ k) :
    ∀ (l : List (String × ProveedorDoc)),
      alGet (alUpdate l k f) k' = alGet l k' := by
  intro l
  induction l with
  | nil => rfl
  | cons p tl ih =>
    obtain ⟨pk, pd⟩ := p
    rw [alUpdate_cons]
    by_cases h : pk = k
    · have hne' : ¬pk = k' := fun hc => hne (hc.symm.trans h)
      rw [if_pos h, alGet_cons, alGet_cons, if_neg hne', if_neg hne']
      exact ih
    · rw [if_neg h, alGet_cons, alGet_cons]
      by_cases h' : pk = k'
      · rw [if_pos h', if_pos h']
      · rw [if_neg h', if_neg h']
        exact ih

/-- Lookup over an append when the key is already bound. -/
theorem alGet_append_of_some (l : List (String × ProveedorDoc)) (k : String)
    (d : ProveedorDoc) (pk : String) (pd : ProveedorDoc)
    (h : alGet l k = some d) : alGet (l ++ [(pk, pd)]) k = some d := by
  simp only [alGet] at h ⊢
  cases hf : l.find? (fun p => p.1 == k) with
  | none => rw [hf] at h; cases h
  | some p =>
    rw [hf] at h
    rw [Helpers.find?_append_of_some _ l [(pk, pd)] p hf]
    exact h

/-- Lookup over an append when the key is unbound on the left. -/
theorem alGet_append_of_none (l : List (String × ProveedorDoc)) (k : String)
    (pk : String) (pd : ProveedorDoc) (h : alGet l k = none) :
    alGet (l ++ [(pk, pd)]) k = if pk = k then some pd else none := by
  simp only [alGet] at h ⊢
  cases hf : l.find? (fun p => p.1 == k) with
  | some p => rw [hf] at h; cases h
  | none =>
    rw [Helpers.find?_append_of_none _ l [(pk, pd)] hf]
    by_cases he : pk = k
    · rw [List.find?_cons_of_pos _ (by simpa using he)]
      simp [he]
    · rw [List.find?_cons_of_neg _ (by simpa using he)]
      simp [he]

/-- The dictionary component of a rejected-row step. -/
theorem procRow_rechazada_fst (uid : String)
    (st : List (String × ProveedorDoc) × List Row) (r : Row)
    (h : aceptada r = false) : (procRow uid st r).1 = st.1 := by
  rw [procRow_rechazada uid st r h]

/-- The dictionary component of a consolidating step. -/
theorem procRow_existente_fst (uid : String)
    (st : List (String × ProveedorDoc) × List Row) (r : Row)
    (h : aceptada r = true) (d : ProveedorDoc)
    (hd : alGet st.1 ((limpiar_nit (some r.nit)).getD "") = some d) :
    (procRow uid st r).1 =
      alUpdate st.1 ((limpiar_nit (some r.nit)).getD "")
        (consolidaProveedor r) := by
  rw [procRow_existente uid st r h d hd]

/-- The dictionary component of a fresh-key step. -/
theorem procRow_nueva_fst (uid : String)
    (st : List (String × ProveedorDoc) × List Row) (r : Row)
    (h : aceptada r = true)
    (hd : alGet st.1 ((limpiar_nit (some r.nit)).getD "") = none) :
    (procRow uid st r).1 =
      st.1 ++ [((limpiar_nit (some r.nit)).getD "", nuevoProveedor uid r)] := by
  rw [procRow_nueva uid st r h hd]

/-- Evaluating `dedupFirst` on one appended element. -/
theorem dedupFirst_append_single (l : List String) (c : String) :
    dedupFirst (l ++ [c]) =
      if c ∈ dedupFirst l then dedupFirst l else dedupFirst l ++ [c] := by
  simp only [dedupFirst, List.foldl_append, List.foldl_cons, List.foldl_nil]

/-- The `dedupFirst` fold keeps the accumulator duplicate-free. -/
theorem dedupFirst_aux_nodup :
    ∀ (l : List String) (acc : List String), acc.Nodup →
      (l.foldl (fun acc c => if c ∈ acc then acc else acc ++ [c]) acc).Nodup := by
  intro l
  induction l with
  | nil => intro acc h; exact h
  | cons c cs ih =>
    intro acc h
    simp only [List.foldl_cons]
    by_cases hc : c ∈ acc
    · rw [if_pos hc]; exact ih acc h
    · rw [if_neg hc]
      refine ih _ ?_
      rw [List.nodup_append]
      exact ⟨h, List.nodup_singleton _,
        fun x hx hx' => hc ((List.mem_singleton.mp hx') ▸ hx)⟩

/-- `dedupFirst` produces a duplicate-free list. -/
theorem dedupFirst_nodup (l : List String) : (dedupFirst l).Nodup :=
  dedupFirst_aux_nodup l [] List.nodup_nil

/-- In-place updates do not change the key list. -/
theorem clavesDict_alUpdate (k : String) (f : ProveedorDoc → ProveedorDoc) :
    ∀ (l : List (String × ProveedorDoc)),
      clavesDict (alUpdate l k f) = clavesDict l := by
  intro l
  induction l with
  | nil => rfl
  | cons p tl ih =>
    obtain ⟨pk, pd⟩ := p
    rw [alUpdate_cons]
    by_cases h : pk = k
    · rw [if_pos h]; simp [clavesDict] at ih ⊢; exact ih
    · rw [if_neg h]; simp [clavesDict] at ih ⊢; exact ih

/-- A key that `alGet` misses is not in the key list. -/
theorem alGet_none_not_mem (k : String) :
    ∀ (l : List (String × ProveedorDoc)), alGet l k = none →
      k ∉ clavesDict l := by
  intro l
  induction l with
  | nil => intro _; simp [clavesDict]
  | cons p tl ih =>
    intro h
    obtain ⟨pk, pd⟩ := p
    rw [alGet_cons] at h
    by_cases hp : pk = k
    · rw [if_pos hp] at h; cases h
    · rw [if_neg hp] at h
      intro hmem
      simp only [clavesDict, List.map_cons] at hmem
      rcases List.mem_cons.mp hmem with hc | hc
      · exact hp hc.symm
      · exact ih h hc

/-- With duplicate-free keys, dictionary membership determines `alGet`. -/
theorem mem_alGet (k : String) (d : ProveedorDoc) :
    ∀ (l : List (String × ProveedorDoc)), (clavesDict l).Nodup →
      (k, d) ∈ l → alGet l k = some d := by
  intro l
  induction l with
  | nil => intro _ h; cases h
  | cons p tl ih =>
    intro hnd hmem
    obtain ⟨pk, pd⟩ := p
    have hnd' : pk ∉ clavesDict tl ∧ (clavesDict tl).Nodup := by
      simpa [clavesDict] using List.nodup_cons.mp hnd
    rw [alGet_cons]
    rcases List.mem_cons.mp hmem with hc | hc
    · obtain ⟨h1, h2⟩ := Prod.mk.injEq .. ▸ hc
      rw [if_pos h1.symm]
      exact congrArg some h2.symm
    · have hkpk : ¬pk = k := by
        intro he
        subst he
        exact hnd'.1 (List.mem_map.mpr ⟨(pk, d), hc, rfl⟩)
      rw [if_neg hkpk]
      exact ih hnd'.2 hc

/-- One row-loop step keeps the dictionary keys duplicate-free. -/
theorem procRow_claves_nodup (uid : String)
    (st : List (String × ProveedorDoc) × List Row) (r : Row)
    (h : (clavesDict st.1).Nodup) :
    (clavesDict (procRow uid st r).1).Nodup := by
  by_cases ha : aceptada r = true
  · cases hget : alGet st.1 ((limpiar_nit (some r.nit)).getD "") with
    | some d =>
      rw [procRow_existente uid st r ha d hget]
      show (clavesDict (alUpdate st.1 _ _)).Nodup
      rw [clavesDict_alUpdate]
      exact h
    | none =>
      rw [procRow_nueva uid st r ha hget]
      show (clavesDict (st.1 ++
        [((limpiar_nit (some r.nit)).getD "", nuevoProveedor uid r)])).Nodup
      have heq : clavesDict (st.1 ++
          [((limpiar_nit (some r.nit)).getD "", nuevoProveedor uid r)]) =
          clavesDict st.1 ++ [(limpiar_nit (some r.nit)).getD ""] := by
        simp [clavesDict]
      rw [heq, List.nodup_append]
      exact ⟨h, List.nodup_singleton _, fun x hx hx' =>
        alGet_none_not_mem _ st.1 hget ((List.mem_singleton.mp hx') ▸ hx)⟩
  · rw [procRow_rechazada uid st r (by simpa using ha)]
    exact h

/-- The whole batch keeps the dictionary keys duplicate-free. -/
theorem fold_claves_nodup_prov (uid : String) :
    ∀ (rows : List Row) (st : List (String × ProveedorDoc) × List Row),
      (clavesDict st.1).Nodup →
      (clavesDict ((rows.foldl (procRow uid) st).1)).Nodup := by
  intro rows
  induction rows with
  | nil => intro st h; exact h
  | cons r rs ih =>
    intro st h
    simp only [List.foldl_cons]
    exact ih _ (procRow_claves_nodup uid st r h)

end Proveedores

namespace Proveedores

/-- Consolidating one more row into a non-empty group is exactly the
in-place update the row loop applies. -/
theorem consolidado_append (uid k : String) (r₀ r : Row) (g' : List Row) :
    consolidado uid k ((r₀ :: g') ++ [r]) =
      (consolidado uid k (r₀ :: g')).map (consolidaProveedor r) := by
  have hpuc : dedupFirst
      ((r₀ :: (g' ++ [r])).map (fun r => limpiar_campo r.cuenta)) =
      if limpiar_campo r.cuenta ∈
          dedupFirst ((r₀ :: g').map (fun r => limpiar_campo r.cuenta)) then
        dedupFirst ((r₀ :: g').map (fun r => limpiar_campo r.cuenta))
      else
        dedupFirst ((r₀ :: g').map (fun r => limpiar_campo r.cuenta)) ++
          [limpiar_campo r.cuenta] := by
    rw [show (r₀ :: (g' ++ [r])) = (r₀ :: g') ++ [r] from rfl,
      List.map_append]
    exact dedupFirst_append_single _ _
  have hfm : (r₀ :: (g' ++ [r])).filterMap extraer_datos_transaccion =
      (r₀ :: g').filterMap extraer_datos_transaccion ++
        (extraer_datos_transaccion r).toList := by
    rw [show (r₀ :: (g' ++ [r])) = (r₀ :: g') ++ [r] from rfl,
      List.filterMap_append]
    cases hex : extraer_datos_transaccion r <;> simp [hex]
  show consolidado uid k (r₀ :: (g' ++ [r])) = _
  simp only [consolidado, Option.map_some']
  rw [hpuc, hfm]
  simp only [consolidaProveedor]
  cases hex : extraer_datos_transaccion r <;>
    by_cases hmem : limpiar_campo r.cuenta ∈
      dedupFirst ((r₀ :: g').map (fun r => limpiar_campo r.cuenta))
  · simp only [if_pos hmem]; simp
  · simp only [if_neg hmem]; simp
  · simp only [if_pos hmem]; simp
  · simp only [if_neg hmem]; simp

/-- Characterization of the provider dictionary built by the row loop:
the entry stored under key `k` is exactly the consolidation of the
accepted rows grouped under `k`, in input order. -/
theorem fold_alGet (uid : String) (rows : List Row) :
    ∀ k, alGet ((rows.foldl (procRow uid) ([], [])).1) k =
      consolidado uid k (grupo rows k) := by
  induction rows using List.reverseRecOn with
  | nil => intro k; rfl
  | append_singleton rows r ih =>
    intro k
    rw [List.foldl_append, List.foldl_cons, List.foldl_nil]
    by_cases ha : aceptada r = true
    · by_cases hk : clave r = k
      · have hk' : (limpiar_nit (some r.nit)).getD "" = k := hk
        subst hk'
        have hbeq : (clave r == (limpiar_nit (some r.nit)).getD "") = true := by
          simpa using hk
        have hgr : grupo (rows ++ [r]) ((limpiar_nit (some r.nit)).getD "") =
            grupo rows ((limpiar_nit (some r.nit)).getD "") ++ [r] := by
          simp [grupo, List.filter_append, ha, hbeq]
        rw [hgr]
        cases hgrp : grupo rows ((limpiar_nit (some r.nit)).getD "") with
        | nil =>
          have hget : alGet ((rows.foldl (procRow uid) ([], [])).1)
              ((limpiar_nit (some r.nit)).getD "") = none := by
            rw [ih _, hgrp]; rfl
          rw [procRow_nueva_fst uid _ r ha hget]
          rw [alGet_append_of_none _ _ _ _ hget, if_pos rfl]
          cases hex : extraer_datos_transaccion r <;>
            simp [consolidado, nuevoProveedor, dedupFirst, hex]
        | cons r₀ g' =>
          have hget : alGet ((rows.foldl (procRow uid) ([], [])).1)
              ((limpiar_nit (some r.nit)).getD "") =
              consolidado uid ((limpiar_nit (some r.nit)).getD "")
                (r₀ :: g') := by
            rw [ih _, hgrp]
          rw [procRow_existente_fst uid _ r ha _ hget]
          rw [alGet_alUpdate_self, hget]
          exact (consolidado_append uid _ r₀ r g').symm
      · have hbeq : (clave r == k) = false := by simpa using hk
        have hgr : grupo (rows ++ [r]) k = grupo rows k := by
          simp [grupo, List.filter_append, hbeq]
        rw [hgr]
        cases hget : alGet ((rows.foldl (procRow uid) ([], [])).1)
            ((limpiar_nit (some r.nit)).getD "") with
        | some d =>
          rw [procRow_existente_fst uid _ r ha d hget]
          rw [alGet_alUpdate_ne _ k _
            (show k ≠ (limpiar_nit (some r.nit)).getD "" from
              fun hc => hk hc.symm)]
          exact ih k
        | none =>
          rw [procRow_nueva_fst uid _ r ha hget]
          cases halk : alGet ((rows.foldl (procRow uid) ([], [])).1) k with
          | some x =>
            rw [alGet_append_of_some _ k x _ _ halk]
            exact halk.symm.trans (ih k)
          | none =>
            rw [alGet_append_of_none _ k _ _ halk,
              if_neg (show ¬((limpiar_nit (some r.nit)).getD "" = k) from
                fun hc => hk hc)]
            exact halk.symm.trans (ih k)
    · have haf : aceptada r = false := by simpa using ha
      have hgr : grupo (rows ++ [r]) k = grupo rows k := by
        simp [grupo, List.filter_append, haf]
      rw [hgr, procRow_rechazada_fst uid _ r haf]
      exact ih k

end Proveedores

namespace Proveedores

/-- Every document in the output of `procesar_archivos_csv` is the
consolidation of some non-trivial group. -/
theorem procesar_mem_consolidado (uid : String) (rows : List Row)
    (d : ProveedorDoc) (hd : d ∈ (procesar_archivos_csv uid rows).1) :
    ∃ k, consolidado uid k (grupo rows k) = some d := by
  simp only [procesar_archivos_csv] at hd
  obtain ⟨p, hp, hpd⟩ := List.mem_map.mp hd
  obtain ⟨pk, pd⟩ := p
  refine ⟨pk, ?_⟩
  have hnd : (clavesDict ((rows.foldl (procRow uid) ([], [])).1)).Nodup :=
    fold_claves_nodup_prov uid rows ([], []) (by simp [clavesDict])
  have halg : alGet ((rows.foldl (procRow uid) ([], [])).1) pk = some pd :=
    mem_alGet pk pd _ hnd hp
  rw [← fold_alGet uid rows pk, halg]
  exact congrArg some hpd

end Proveedores

/-- C2: every consolidated provider record's account-code list `PUC` is
the order-preserving deduplication (first appearance wins) of the cleaned
account codes of its group's accepted rows, hence contains no duplicates;
and a group contributing the codes `5100`, `5100`, `6200` (in that order)
yields exactly `["5100", "6200"]`. -/
theorem claim_C2_puc_union (uid : String) (rows : List Proveedores.Row) :
    (∀ d ∈ (Proveedores.procesar_archivos_csv uid rows).1,
      d.PUC = Proveedores.dedupFirst
          ((Proveedores.grupo rows d.id).map
            (fun r => Proveedores.limpiar_campo r.cuenta)) ∧
        d.PUC.Nodup) ∧
    ((Proveedores.procesar_archivos_csv "u"
        Proveedores.filasEjemploPUC).1.map (·.PUC) = [["5100", "6200"]]) := by
  constructor
  · intro d hd
    obtain ⟨k, hk⟩ := Proveedores.procesar_mem_consolidado uid rows d hd
    cases hgrp : Proveedores.grupo rows k with
    | nil => rw [hgrp] at hk; cases hk
    | cons r₀ g' =>
      rw [hgrp] at hk
      simp only [Proveedores.consolidado] at hk
      obtain rfl := Option.some.inj hk
      constructor
      · show Proveedores.dedupFirst ((r₀ :: g').map
            (fun r => Proveedores.limpiar_campo r.cuenta)) =
          Proveedores.dedupFirst ((Proveedores.grupo rows k).map
            (fun r => Proveedores.limpiar_campo r.cuenta))
        rw [hgrp]
      · exact Proveedores.dedupFirst_nodup _
  · decide

/-- C2 witness: the general invariant applied to the example batch. -/
theorem claim_C2_witness :
    Proveedores.docEjemploPUC.PUC.Nodup :=
  ((claim_C2_puc_union "u" Proveedores.filasEjemploPUC).1
    Proveedores.docEjemploPUC (by decide)).2

/-- C7 (counterexample): two rows of one group whose cleaned descriptions
are `""` then `"Desc B"` yield a consolidated record whose `description`
is `""` — the later non-empty value does **not** replace the earlier empty
one, contradicting first-non-empty-wins. -/
theorem claim_C7_counterexample :
    (Proveedores.procesar_archivos_csv "u"
        Proveedores.filasEjemploDesc).1.map (·.description) = [""] ∧
    (Proveedores.grupo Proveedores.filasEjemploDesc "111").map
      (fun r => Proveedores.limpiar_campo r.descripcion) = ["", "Desc B"] := by
  decide

/-- C7 (amended): the consolidated record's scalar fields `name` and
`description` are taken from the group's *first accepted row* and are
never replaced by later rows; `name` coincides with the first non-empty
name only because rows with a blank name are rejected outright, while
`description` keeps the first row's value even when it is blank and a
later row's is not. -/
theorem claim_C7_scalar_first_row (uid : String)
    (rows : List Proveedores.Row) :
    ∀ d ∈ (Proveedores.procesar_archivos_csv uid rows).1,
      ∃ r₀ g', Proveedores.grupo rows d.id = r₀ :: g' ∧
        d.name = Proveedores.limpiar_campo r₀.nombre ∧
        d.description = Proveedores.limpiar_campo r₀.descripcion ∧
        d.name ≠ "" := by
  intro d hd
  obtain ⟨k, hk⟩ := Proveedores.procesar_mem_consolidado uid rows d hd
  cases hgrp : Proveedores.grupo rows k with
  | nil => rw [hgrp] at hk; cases hk
  | cons r₀ g' =>
    rw [hgrp] at hk
    simp only [Proveedores.consolidado] at hk
    obtain rfl := Option.some.inj hk
    have hr₀ : r₀ ∈ Proveedores.grupo rows k := by
      rw [hgrp]; exact List.mem_cons_self _ _
    have hpred := (List.mem_filter.mp hr₀).2
    have hacc : Proveedores.aceptada r₀ = true := by
      simp only [Bool.and_eq_true] at hpred
      exact hpred.1
    have hreq := (Proveedores.aceptada_iff r₀).mp hacc
    exact ⟨r₀, g', hgrp, rfl, rfl,
      fun hc => hreq (Or.inr (Or.inr hc))⟩

/-- C7 witness: the amended theorem applied to the example batch. -/
theorem claim_C7_witness : Proveedores.docEjemploDesc.name ≠ "" := by
  obtain ⟨r₀, g', h1, h2, h3, h4⟩ :=
    claim_C7_scalar_first_row "u" Proveedores.filasEjemploDesc
      Proveedores.docEjemploDesc (by decide)
  exact h4

/-- C10: every consolidated provider record classifies its owner as
`Company` exactly when the cleaned NIT (the record's `id`) is nine
characters long and starts with `8` or `9`, and as `Person` otherwise;
`idType` is `31` exactly for companies and `13` for persons; and every
row of the record's group carries that same cleaned NIT. -/
theorem claim_C10_person_type (uid : String) (rows : List Proveedores.Row) :
    ∀ d ∈ (Proveedores.procesar_archivos_csv uid rows).1,
      (d.personType = "Company" ↔
        d.id.length = 9 ∧
          (d.id.data.headD ' ' = '8' ∨ d.id.data.headD ' ' = '9')) ∧
      d.idType = (if d.personType = "Company" then "31" else "13") ∧
      ∀ r ∈ Proveedores.grupo rows d.id,
        (Proveedores.limpiar_nit (some r.nit)).getD "" = d.id := by
  intro d hd
  obtain ⟨k, hk⟩ := Proveedores.procesar_mem_consolidado uid rows d hd
  cases hgrp : Proveedores.grupo rows k with
  | nil => rw [hgrp] at hk; cases hk
  | cons r₀ g' =>
    rw [hgrp] at hk
    simp only [Proveedores.consolidado] at hk
    obtain rfl := Option.some.inj hk
    refine ⟨?_, rfl, ?_⟩
    · show Proveedores.tipoPersonaDe k = "Company" ↔
        k.length = 9 ∧ (k.data.headD ' ' = '8' ∨ k.data.headD ' ' = '9')
      unfold Proveedores.tipoPersonaDe
      by_cases h : k.length = 9 ∧
          (k.data.headD ' ' = '8' ∨ k.data.headD ' ' = '9')
      · rw [if_pos h]
        exact ⟨fun _ => h, fun _ => rfl⟩
      · rw [if_neg h]
        exact ⟨fun hc => absurd hc (by decide), fun hc => absurd hc h⟩
    · intro r hr
      have hpred := (List.mem_filter.mp (by
        show r ∈ Proveedores.grupo rows k
        exact hr)).2
      have hclave : Proveedores.clave r = k := by
        simp only [Bool.and_eq_true] at hpred
        simpa using hpred.2
      exact hclave

/-- C10 witness: a nine-digit NIT starting with `9` is classified as a
company. -/
theorem claim_C10_witness : Proveedores.docEjemploNIT.personType = "Company" := by
  have h := (claim_C10_person_type "u" Proveedores.filasEjemploNIT
    Proveedores.docEjemploNIT (by decide)).1
  exact h.mpr (by decide)
